import Mathlib

/-!
Verification of the `dar` single-file archive format against its
natural-language specification.  The definitions below are a shallow
embedding of the Rust sources: archive buffers are lists of byte values
(`Nat`, each `< 256`), big-endian integer encoding is explicit, and the
writer / reader / validator procedures are translated function by
function from `src/models/archive.rs`, `src/commands/create.rs`,
`src/commands/extract.rs`, `src/commands/list.rs`,
`src/commands/validate.rs` and `src/archive.rs`.  External compression
codecs (brotli, zstd, xz) and the BLAKE3 digest are external crates, not
code of this repository; they enter the embedding as function
parameters, while everything the repository itself computes (byte
layouts, offsets, dispatch, checks) is modelled concretely.
-/

set_option maxRecDepth 100000

namespace Dar


/-- Archive buffers and byte strings: lists of byte values. -/
abbrev Bytes := List Nat

/-- Big-endian encoding of a `u16` (Rust `u16::to_be_bytes`). -/
def u16ToBe (n : Nat) : Bytes := [n / 256 % 256, n % 256]

/-- Big-endian encoding of a `u32` (Rust `u32::to_be_bytes`). -/
def u32ToBe (n : Nat) : Bytes :=
  [n / 2 ^ 24 % 256, n / 2 ^ 16 % 256, n / 2 ^ 8 % 256, n % 256]

/-- Big-endian encoding of a `u64` (Rust `u64::to_be_bytes`). -/
def u64ToBe (n : Nat) : Bytes :=
  [n / 2 ^ 56 % 256, n / 2 ^ 48 % 256, n / 2 ^ 40 % 256, n / 2 ^ 32 % 256,
   n / 2 ^ 24 % 256, n / 2 ^ 16 % 256, n / 2 ^ 8 % 256, n % 256]

/-- Big-endian decoding (Rust `uNN::from_be_bytes`). -/
def beToNat (bs : Bytes) : Nat := bs.foldl (fun acc b => acc * 256 + b) 0

/-- The sub-buffer `l[pos .. pos+n]` (Rust slice indexing). -/
def slice (l : Bytes) (pos n : Nat) : Bytes := (l.drop pos).take n

/-- In-place overwrite `l[pos .. pos+r.length].copy_from_slice(r)`:
meaningful when `pos + r.length ≤ l.length`. -/
def setSlice (l : Bytes) (pos : Nat) (r : Bytes) : Bytes :=
  l.take pos ++ r ++ l.drop (pos + r.length)

/-- 32 zero bytes, the placeholder for a BLAKE3 digest. -/
def zeros32 : Bytes := List.replicate 32 0

/-- The `CompressionAlgorithm` enum of `src/models/archive.rs`. -/
inductive CompressionAlgorithm where
  | None
  | Brotli
  | Zstandard
  | Lzma
deriving DecidableEq, Repr

/-- `CompressionAlgorithm::as_byte` (the `#[repr(u8)]` discriminant). -/
def CompressionAlgorithm.asByte : CompressionAlgorithm → Nat
  | .None => 0
  | .Brotli => 1
  | .Zstandard => 2
  | .Lzma => 3

/-- `TryFrom<u8> for CompressionAlgorithm` in `src/models/archive.rs`:
all four variants decode, anything else is an error. -/
def CompressionAlgorithm.tryFromByte : Nat → Option CompressionAlgorithm
  | 0 => some .None
  | 1 => some .Brotli
  | 2 => some .Zstandard
  | 3 => some .Lzma
  | _ => Option.none

/-- The byte-to-algorithm match inside `extract.rs::call` (lines 139-144):
it reconstructs only `None`, `Brotli` and `Zstandard`; every other byte —
including 3, the stored discriminant of `Lzma` — is the error
`Unknown compression algorithm`. -/
def extractAlgoFromByte : Nat → Option CompressionAlgorithm
  | 0 => some .None
  | 1 => some .Brotli
  | 2 => some .Zstandard
  | _ => Option.none

/-- Recognized text/source extensions (`create.rs::get_compression_algorithm`). -/
def textExts : List String :=
  ["rs", "py", "js", "c", "h", "cpp", "cc", "cxx", "go", "java", "rb",
   "tsx", "jsx", "css", "html", "json", "yaml", "yml", "xml", "txt", "md",
   "toml", "sh", "bash", "scala", "kt", "cs", "vb", "php", "pl", "lua",
   "vim", "lisp", "clj", "ex", "erl", "gradle", "maven", "sbt"]

/-- Recognized image extensions (already compressed, stored verbatim). -/
def imageExts : List String :=
  ["jpg", "jpeg", "png", "gif", "webp", "svg", "ico", "bmp", "tiff", "psd",
   "heic"]

/-- Recognized video extensions (already compressed, stored verbatim). -/
def videoExts : List String :=
  ["mp4", "mkv", "avi", "mov", "webm", "flv", "m4v", "wmv", "3gp", "m2ts",
   "mts", "ts"]

/-- Recognized audio extensions (already compressed, stored verbatim). -/
def audioExts : List String :=
  ["mp3", "aac", "flac", "wav", "m4a", "opus"]

/-- Recognized archive extensions (already compressed, stored verbatim). -/
def archiveExts : List String :=
  ["zip", "tar", "gz", "bz2", "7z", "rar", "xz"]

/-- Character-wise lowercasing (Rust `str::to_lowercase`; both sides map
ASCII `A`-`Z` to `a`-`z`, and the recognized extension literals are ASCII). -/
def strLower (s : String) : String := ⟨s.data.map Char.toLower⟩

/-- `create.rs::get_compression_algorithm`: selects the codec from the
lowercased file extension (`Option.none` models a path with no extension). -/
def getCompressionAlgorithm (ext : Option String) : CompressionAlgorithm :=
  match ext with
  | some e =>
      let el := strLower e
      if textExts.contains el then .Lzma
      else if imageExts.contains el then .None
      else if videoExts.contains el then .None
      else if audioExts.contains el then .None
      else if archiveExts.contains el then .None
      else .Zstandard
  | Option.none => .Zstandard

/-! ## Binary codec (`src/models/archive.rs`) -/

/-- `ArchiveHeader::MAGIC`, the bytes of `b"DAR\0"`. -/
def MAGIC : Bytes := [68, 65, 82, 0]

/-- `ArchiveHeader::VERSION`, the bytes of `b"0004"`. -/
def VERSION : Bytes := [48, 48, 48, 52]

/-- The version literal `b"0003"` hard-coded in `validate.rs::read_header`. -/
def VER0003 : Bytes := [48, 48, 48, 51]

/-- `ArchiveEndRecord::MAGIC`, the bytes of `b"DEND"`. -/
def ENDMAGIC : Bytes := [68, 69, 78, 68]

/-- The `ArchiveHeader` struct of `src/models/archive.rs`. -/
structure ArchiveHeader where
  data_section_start : Nat
  index_section_start : Nat
  total_files : Nat
  created_timestamp : Nat
  archive_checksum : Bytes
deriving DecidableEq, Repr

/-- `ArchiveHeader::write_to`: magic, version, the three offsets/counts, the
timestamp, the 32-byte checksum, a reserved flags byte, zero padding to 512
bytes (the padding count mirrors the source's `SIZE - bytes_written`,
saturating at 0). -/
def headerWriteTo (h : ArchiveHeader) : Bytes :=
  let body := MAGIC ++ VERSION ++ u64ToBe h.data_section_start ++
    u64ToBe h.index_section_start ++ u32ToBe h.total_files ++
    u64ToBe h.created_timestamp ++ h.archive_checksum ++ [0]
  body ++ List.replicate (512 - body.length) 0

/-- The `ArchiveIndexEntry` struct of `src/models/archive.rs` (the path kept
as its UTF-8 bytes). -/
structure ArchiveIndexEntry where
  path : Bytes
  data_offset : Nat
  uncompressed_size : Nat
  compressed_size : Nat
  compression_algorithm : CompressionAlgorithm
  modification_time : Nat
  uid : Nat
  gid : Nat
  permissions : Nat
  checksum : Bytes
deriving DecidableEq, Repr

/-- `ArchiveIndexEntry::write_to`: a placeholder 4-byte length is written,
then the body (path length, path, scalar fields, checksum), and the
placeholder is rewritten with the body's true length — the result is the
body's length followed by the body. -/
def indexEntryWriteTo (e : ArchiveIndexEntry) : Bytes :=
  let body := u32ToBe e.path.length ++ e.path ++ u64ToBe e.data_offset ++
    u64ToBe e.uncompressed_size ++ u64ToBe e.compressed_size ++
    [e.compression_algorithm.asByte] ++ u64ToBe e.modification_time ++
    [e.uid] ++ [e.gid] ++ u16ToBe e.permissions ++ e.checksum
  u32ToBe body.length ++ body

/-- The `ArchiveEndRecord` struct of `src/models/archive.rs`. -/
structure ArchiveEndRecord where
  index_offset : Nat
  index_length : Nat
  archive_checksum : Bytes
deriving DecidableEq, Repr

/-- `ArchiveEndRecord::write_to`: magic, the two offsets, the 32-byte
checksum, a reserved flags byte, zero padding to 64 bytes. -/
def endRecordWriteTo (r : ArchiveEndRecord) : Bytes :=
  let body := ENDMAGIC ++ u64ToBe r.index_offset ++ u64ToBe r.index_length ++
    r.archive_checksum ++ [0]
  body ++ List.replicate (64 - body.length) 0

/-! ## Header decoding -/

/-- `src/archive.rs::read_header`: reads exactly 512 bytes (an error when
fewer are available, mirroring `read_exact`), compares `buf[0..3]` against
`b"DAR"` and `buf[4..8]` against `ArchiveHeader::VERSION`, then parses the
offsets, count and stored checksum; `Option.none` is the
`Invalid header magic or version` / short-read error case in which no
header value is produced. -/
def archiveReadHeader (file : Bytes) : Option ArchiveHeader :=
  if file.length < 512 then Option.none
  else
    let buf := file.take 512
    if slice buf 0 3 = [68, 65, 82] ∧ slice buf 4 4 = VERSION then
      some { data_section_start := beToNat (slice buf 8 8)
             index_section_start := beToNat (slice buf 16 8)
             total_files := beToNat (slice buf 24 4)
             created_timestamp := 0
             archive_checksum := slice buf 36 32 }
    else Option.none

/-- `validate.rs::read_header` (lines 271-306): identical to
`archiveReadHeader` except that the version literal it compares against is
the stale `b"0003"`. -/
def validateReadHeader (file : Bytes) : Option ArchiveHeader :=
  if file.length < 512 then Option.none
  else
    let buf := file.take 512
    if slice buf 0 3 = [68, 65, 82] ∧ slice buf 4 4 = VER0003 then
      some { data_section_start := beToNat (slice buf 8 8)
             index_section_start := beToNat (slice buf 16 8)
             total_files := beToNat (slice buf 24 4)
             created_timestamp := 0
             archive_checksum := slice buf 36 32 }
    else Option.none

/-- `validate.rs::read_end_record` / `src/archive.rs::read_end_record`:
seeks to `file_size - 64`, reads 64 bytes, validates the `DEND` magic and
parses the offsets and stored checksum. -/
def readEndRecord (file : Bytes) : Option ArchiveEndRecord :=
  if file.length < 64 then Option.none
  else
    let buf := slice file (file.length - 64) 64
    if slice buf 0 4 = ENDMAGIC then
      some { index_offset := beToNat (slice buf 4 8)
             index_length := beToNat (slice buf 12 8)
             archive_checksum := slice buf 20 32 }
    else Option.none

/-! ## Slice arithmetic helpers -/

/-! ## Checksum engine (`create.rs` lines 178-198, `src/archive.rs` /
`validate.rs` `calculate_archive_checksum`) -/

/-- The byte stream the creator feeds to the BLAKE3 hasher (`create.rs`
lines 180-189): header bytes before the checksum field, 32 zero bytes,
everything from byte 68 up to the end record, the end record's first 20
bytes, 32 zero bytes, and the end record's tail.  `endOff` is
`end_record_offset`. -/
def checksumStreamCreate (bytes : Bytes) (endOff : Nat) : Bytes :=
  slice bytes 0 36 ++ zeros32 ++ slice bytes 68 (endOff - 68) ++
  slice bytes endOff 20 ++ zeros32 ++ bytes.drop (endOff + 52)

/-- The validator's 64KB-chunk read loop (`calculate_archive_checksum`
lines 368-376): reads `min 65536 remaining` bytes at a time from `data` and
feeds them to the hasher in order, stopping early on a zero-length read. -/
def chunkLoop (data : Bytes) (remaining : Nat) : Bytes :=
  if h0 : remaining = 0 then []
  else
    let chunk := data.take (min 65536 remaining)
    if hc : chunk.length = 0 then []
    else
      have _hdec : remaining - chunk.length < remaining :=
        Nat.sub_lt (Nat.pos_of_ne_zero h0) (Nat.pos_of_ne_zero hc)
      chunk ++ chunkLoop (data.drop chunk.length) (remaining - chunk.length)
termination_by remaining
decreasing_by exact _hdec

/-- The byte stream the validator feeds to the BLAKE3 hasher
(`calculate_archive_checksum`): the 512 header bytes with the checksum
field zero-filled, the middle of the file read in 64KB chunks, and the
final 64 end-record bytes with their checksum field zero-filled. -/
def checksumStreamValidate (bytes : Bytes) : Bytes :=
  slice (bytes.take 512) 0 36 ++ zeros32 ++ (bytes.take 512).drop 68 ++
  chunkLoop (bytes.drop 512) (bytes.length - 512 - 64) ++
  slice (slice bytes (bytes.length - 64) 64) 0 20 ++ zeros32 ++
  (slice bytes (bytes.length - 64) 64).drop 52

/-! ## Archive Writer (`create.rs::call`)

The writer is embedded as a pure assembly function.  Filesystem access and
the external codecs are collaborators: each input file enters as the data
the source obtains from them — its archive path (after
`calculate_archive_path`), its `metadata` length, modification time,
uid/gid/permissions, its BLAKE3 content digest, the codec chosen by
`get_compression_algorithm`, and the codec's output bytes.  Everything the
writer itself computes — offsets, length prefixes, the index, the end
record, the backpatches and the checksum stream — is modelled exactly. -/

structure InputFile where
  archivePath : Bytes
  fileSize : Nat
  compressedData : Bytes
  algorithm : CompressionAlgorithm
  modificationTime : Nat
  uid : Nat
  gid : Nat
  permissions : Nat
  fileChecksum : Bytes
deriving DecidableEq, Repr

/-- The per-file body of the create loop (`create.rs` lines 43-145 together
with `add_file`): record the current offset relative to the data section
start, append the 8-byte compressed-length field and the compressed bytes,
and collect the `ArchiveIndexEntry`. -/
def addFilesLoop (buf : Bytes) (dss : Nat) :
    List InputFile → Bytes × List ArchiveIndexEntry
  | [] => (buf, [])
  | f :: rest =>
      let off := buf.length - dss
      let buf2 := buf ++ u64ToBe f.compressedData.length ++ f.compressedData
      let entry : ArchiveIndexEntry :=
        { path := f.archivePath
          data_offset := off
          uncompressed_size := f.fileSize
          compressed_size := f.compressedData.length
          compression_algorithm := f.algorithm
          modification_time := f.modificationTime
          uid := f.uid
          gid := f.gid
          permissions := f.permissions
          checksum := f.fileChecksum }
      let r := addFilesLoop buf2 dss rest
      (r.1, entry :: r.2)

/-- The writer's result: the final buffer flushed to disk and the
bookkeeping values the source keeps in locals. -/
structure CreateResult where
  bytes : Bytes
  data_section_start : Nat
  index_section_start : Nat
  index_length : Nat
  end_record_offset : Nat
  file_count : Nat
  entries : List ArchiveIndexEntry

/-- The placeholder header reserved first (`create.rs` lines 33-36:
`ArchiveHeader::new(0, 0, 0)` written into the fresh buffer). -/
def createHeader0 (ts : Nat) : Bytes :=
  headerWriteTo
    { data_section_start := 0, index_section_start := 0, total_files := 0,
      created_timestamp := ts, archive_checksum := zeros32 }

/-- The buffer and collected index entries after the create loop has added
every input file (`create.rs` lines 38-145; the data section starts right
after the header). -/
def createAfterData (ts : Nat) (files : List InputFile) :
    Bytes × List ArchiveIndexEntry :=
  addFilesLoop (createHeader0 ts) (createHeader0 ts).length files

/-- `index_section_start` (`create.rs` line 148): the buffer length once
all data has been appended. -/
def createIss (ts : Nat) (files : List InputFile) : Nat :=
  (createAfterData ts files).1.length

/-- `file_count` (`create.rs` line 41/95/141: incremented once per added
file, so the number of collected entries). -/
def createCount (ts : Nat) (files : List InputFile) : Nat :=
  (createAfterData ts files).2.length

/-- The buffer after the entry count and every index entry have been
written (`create.rs` lines 151-157). -/
def createBuf3 (ts : Nat) (files : List InputFile) : Bytes :=
  (createAfterData ts files).1 ++ u32ToBe (createCount ts files) ++
    ((createAfterData ts files).2.map indexEntryWriteTo).flatten

/-- `end_record_offset` (`create.rs` line 161). -/
def createEndOff (ts : Nat) (files : List InputFile) : Nat :=
  (createBuf3 ts files).length

/-- `index_length` (`create.rs` line 159). -/
def createIndexLength (ts : Nat) (files : List InputFile) : Nat :=
  (createBuf3 ts files).length - createIss ts files

/-- The buffer after the end record (with zero checksum) has been appended
(`create.rs` lines 164-165). -/
def createBuf4 (ts : Nat) (files : List InputFile) : Bytes :=
  createBuf3 ts files ++ endRecordWriteTo
    { index_offset := createIss ts files,
      index_length := createIndexLength ts files,
      archive_checksum := zeros32 }

/-- Backpatch of `data_section_start` into header bytes 8-15
(`create.rs` lines 169-170; the data section starts right after the
placeholder header, at its length). -/
def createBuf5 (ts : Nat) (files : List InputFile) : Bytes :=
  setSlice (createBuf4 ts files) 8 (u64ToBe (createHeader0 ts).length)

/-- Backpatch of `index_section_start` into header bytes 16-23
(`create.rs` lines 172-173). -/
def createBuf6 (ts : Nat) (files : List InputFile) : Bytes :=
  setSlice (createBuf5 ts files) 16 (u64ToBe (createIss ts files))

/-- Backpatch of `total_files` into header bytes 24-27
(`create.rs` lines 175-176). -/
def createBuf7 (ts : Nat) (files : List InputFile) : Bytes :=
  setSlice (createBuf6 ts files) 24 (u32ToBe (createCount ts files))

/-- The whole-archive digest (`create.rs` lines 180-190): `H` is the BLAKE3
collaborator applied to the creator's checksum stream. -/
def createDigest (H : Bytes → Bytes) (ts : Nat) (files : List InputFile) :
    Bytes :=
  H (checksumStreamCreate (createBuf7 ts files) (createEndOff ts files))

/-- The final buffer flushed to disk, with the digest backpatched into the
header checksum field (bytes 36-67) and the end-record checksum field
(bytes 20-51 of the end record) — `create.rs` lines 192-198. -/
def createBytes (H : Bytes → Bytes) (ts : Nat) (files : List InputFile) :
    Bytes :=
  setSlice
    (setSlice (createBuf7 ts files) 36 (createDigest H ts files))
    (createEndOff ts files + 20) (createDigest H ts files)

/-- `create.rs::call`, lines 32-201, assembled: the flushed buffer together
with the bookkeeping values the source keeps in locals. -/
def createArchive (H : Bytes → Bytes) (ts : Nat) (files : List InputFile) :
    CreateResult :=
  { bytes := createBytes H ts files
    data_section_start := (createHeader0 ts).length
    index_section_start := createIss ts files
    index_length := createIndexLength ts files
    end_record_offset := createEndOff ts files
    file_count := createCount ts files
    entries := (createAfterData ts files).2 }

/-! ## Writer layout facts -/

/-- The bytes the create loop appends to the data section: for each file an
8-byte compressed-length field followed by the compressed bytes. -/
def dataBytesOf (files : List InputFile) : Bytes :=
  (files.map (fun f => u64ToBe f.compressedData.length ++ f.compressedData)).flatten

/-! ## Archive Reader (`extract.rs::call`) and Slow-level entry
verification (`validate.rs::verify_entry_data`) -/

/-- The external decompression codecs (brotli, zstd, xz crates), entering
the embedding as function parameters; `Option.none` is a codec failure. -/
structure Codec where
  brotliD : Bytes → Option Bytes
  zstdD : Bytes → Option Bytes
  lzmaD : Bytes → Option Bytes

/-- The index entry fields the extractor keeps (the local `IndexEntry`
struct of `extract.rs`, lines 62-71, dropping the unused metadata). -/
structure XEntry where
  path : Bytes
  data_offset : Nat
  uncompressed_size : Nat
  compressed_size : Nat
  compression_algorithm : CompressionAlgorithm
deriving Repr

/-- Rust `read_exact` of `n` bytes at absolute position `pos` of an
in-memory file: fails when fewer than `n` bytes remain. -/
def readExact (file : Bytes) (pos n : Nat) : Option Bytes :=
  if pos + n ≤ file.length then some (slice file pos n) else Option.none

/-- The decompression dispatch of `extract.rs` lines 184-206: `None` passes
the bytes through, the other variants call their codec. -/
def extractDecompress (c : Codec) (alg : CompressionAlgorithm) (data : Bytes) :
    Option Bytes :=
  match alg with
  | .None => some data
  | .Brotli => c.brotliD data
  | .Zstandard => c.zstdD data
  | .Lzma => c.lzmaD data

/-- The per-entry data phase of extraction (`extract.rs` lines 168-216):
seek to `data_section_start + data_offset`, read the 8-byte length field
(bound to the never-used `_actual_compressed_size`), read exactly
`compressed_size` bytes, decompress per the entry's recorded algorithm,
and fail unless the decompressed length equals `uncompressed_size`. -/
def extractEntryStep (c : Codec) (file : Bytes) (dss : Nat) (e : XEntry) :
    Option Bytes :=
  match readExact file (dss + e.data_offset) 8 with
  | Option.none => Option.none
  | some _actualCompressedSize =>
      match readExact file (dss + e.data_offset + 8) e.compressed_size with
      | Option.none => Option.none
      | some compressedData =>
          match extractDecompress c e.compression_algorithm compressedData with
          | Option.none => Option.none
          | some uncompressedData =>
              if uncompressedData.length = e.uncompressed_size then
                some uncompressedData
              else Option.none

/-- The `ParsedIndexEntry` of `validate.rs` (lines 416-432): the validator
keeps the compression algorithm as its raw byte. -/
structure VEntry where
  path : Bytes
  data_offset : Nat
  uncompressed_size : Nat
  compressed_size : Nat
  compression_algorithm : Nat
  modification_time : Nat
  uid : Nat
  gid : Nat
  permissions : Nat
  checksum : Bytes
deriving Repr

/-- `validate.rs::verify_entry_data` (lines 534-596): seek to
`data_section_start + data_offset`, read the 8-byte length field, FAIL if
it differs from the entry's recorded `compressed_size`, read the
compressed bytes, decompress per the raw algorithm byte (0, 1 or 2; any
other byte is an error), compare the length against `uncompressed_size`
and the digest (`H`, the BLAKE3 collaborator) against the stored
checksum.  `Option.none` is any recorded failure. -/
def verifyEntryData (H : Bytes → Bytes) (c : Codec) (file : Bytes)
    (header : ArchiveHeader) (e : VEntry) : Option Unit :=
  match readExact file (header.data_section_start + e.data_offset) 8 with
  | Option.none => Option.none
  | some buf =>
      let entryLen := beToNat buf
      if entryLen ≠ e.compressed_size then Option.none
      else
        match readExact file (header.data_section_start + e.data_offset + 8)
            e.compressed_size with
        | Option.none => Option.none
        | some compressed =>
            match
              (match e.compression_algorithm with
               | 0 => some compressed
               | 1 => c.brotliD compressed
               | 2 => c.zstdD compressed
               | _ => Option.none) with
            | Option.none => Option.none
            | some uncompressed =>
                if uncompressed.length ≠ e.uncompressed_size then Option.none
                else if H uncompressed ≠ e.checksum then Option.none
                else some ()

/-! ## Path handling (extraction output paths and `create.rs::sanitize_path`)

Paths are modelled as Unix-style component lists (`std::path::Component`:
`RootDir`, `ParentDir`, `CurDir`, `Normal`); `Prefix` components are
Windows-only and do not arise for the slash-separated strings modelled
here. -/

inductive PathComp where
  | rootDir
  | parentDir
  | curDir
  | normal (name : String)
deriving DecidableEq, Repr

/-- Split a character list at every slash (the separator handling of
`std::path` component iteration for Unix paths). -/
def splitSlash : List Char → List (List Char)
  | [] => [[]]
  | c :: rest =>
      match splitSlash rest with
      | [] => [[]]
      | g :: gs => if c = '/' then [] :: g :: gs else (c :: g) :: gs

/-- One slash-separated segment as a component: empty segments (collapsed
or leading separators) disappear, `.` is `CurDir`, `..` is `ParentDir`,
anything else is a `Normal` component. -/
def compOfSegment (t : List Char) : Option PathComp :=
  if t = [] then Option.none
  else if t = ['.'] then some PathComp.curDir
  else if t = ['.', '.'] then some PathComp.parentDir
  else some (PathComp.normal (String.mk t))

/-- The component list of a path string (`Path::components()` for a
Unix-style path): a leading slash is the root component, then the
slash-separated segments. -/
def parsePathComps (s : String) : List PathComp :=
  (if s.data.head? = some '/' then [PathComp.rootDir] else []) ++
    (splitSlash s.data).filterMap compOfSegment

/-- `Path::join` (used at `extract.rs` line 160,
`Path::new(out_dir).join(&entry.path)`): an absolute right-hand path
replaces the base entirely, otherwise the components are appended. -/
def joinPath (base other : List PathComp) : List PathComp :=
  if other.head? = some PathComp.rootDir then other else base ++ other

/-- What the filesystem resolves when the joined path is created
(`create_dir_all` + `File::create`): `..` steps back to the parent
directory, `.` is ignored, normal components descend.  The result is the
final location's component list relative to the working directory. -/
def resolveComps (cs : List PathComp) : List String :=
  cs.foldl
    (fun stack c =>
      match c with
      | PathComp.rootDir => []
      | PathComp.curDir => stack
      | PathComp.parentDir => stack.dropLast
      | PathComp.normal name => stack ++ [name])
    []

/-- A resolved location lies under a resolved root directory exactly when
the root's components lead it. -/
def underRoot (root result : List String) : Bool :=
  result.take root.length == root

/-- `create.rs::sanitize_path` (lines 252-276), as the component vector it
joins with `/`: `ParentDir`, `RootDir`, `CurDir` and prefix components are
skipped, `Normal` components are kept. -/
def sanitizeComps (cs : List PathComp) : List String :=
  cs.filterMap
    (fun c =>
      match c with
      | PathComp.normal name => some name
      | _ => Option.none)

/-! ## Listing (`list.rs::call`) -/

/-- The fields of one index entry that `list.rs` parses from the entry body
(lines 76-100) and displays (lines 102-113): the path bytes, the
uncompressed size and the compressed size.  The printed row is
`display_path(path)`, `format_size(uncompressed)`,
`format_size(compressed)` — a function of exactly this triple; the
`data_offset` is parsed but not displayed, and the compression-algorithm
byte at `4 + path_len + 24` is never read at all.  A body too short for
these fixed offsets is a parse failure (`Option.none`). -/
def listRowFields (b : Bytes) : Option (Bytes × Nat × Nat) :=
  if 4 + beToNat (slice b 0 4) + 24 ≤ b.length then
    let pathLen := beToNat (slice b 0 4)
    let path := slice b 4 pathLen
    let offset := 4 + pathLen
    let _dataOffset := beToNat (slice b offset 8)
    let uncompressed := beToNat (slice b (offset + 8) 8)
    let compressed := beToNat (slice b (offset + 16) 8)
    some (path, uncompressed, compressed)
  else Option.none

/-- The external compression codecs (`compress_brotli`,
`compress_zstandard`, `compress_lzma` wrap the brotli, zstd and xz
crates), entering the embedding as function parameters; `Option.none` is a
codec failure. -/
structure CompressFns where
  brotliC : Bytes → Option Bytes
  zstdC : Bytes → Option Bytes
  lzmaC : Bytes → Option Bytes

/-- The compression dispatch of `create.rs::add_file` (lines 376-381):
`None` stores the raw bytes verbatim (`data.clone()`), the other variants
call their codec. -/
def compressData (c : CompressFns) (alg : CompressionAlgorithm) (data : Bytes) :
    Option Bytes :=
  match alg with
  | .None => some data
  | .Brotli => c.brotliC data
  | .Zstandard => c.zstdC data
  | .Lzma => c.lzmaC data

/-! ## Validation context and verdict (`validate.rs` lines 22-90, 224-254) -/

/-- The `ValidationContext` of `validate.rs` (lines 23-29; the verbose flag
and file size only affect printing). -/
structure VCtx where
  checks_passed : Nat
  checks_failed : Nat
  errors : List String
deriving DecidableEq, Repr

/-- `ValidationContext::check` (lines 42-59): a passing check increments
`checks_passed`; a failing one increments `checks_failed` and records
`"{name}: {error}"`. -/
def vctxCheck (ctx : VCtx) (name : String) : Except String Unit → VCtx
  | Except.ok _ => { ctx with checks_passed := ctx.checks_passed + 1 }
  | Except.error e =>
      { checks_passed := ctx.checks_passed,
        checks_failed := ctx.checks_failed + 1,
        errors := ctx.errors ++ [name ++ ": " ++ e] }

/-- `ValidationContext::is_valid` (lines 68-70). -/
def VCtx.isValid (ctx : VCtx) : Bool := ctx.checks_failed == 0

/-- A whole validation run's recorded checks, folded over the fresh
context (`ValidationContext::new` starts at 0 passed, 0 failed, no
errors). -/
def runChecks (rs : List (String × Except String Unit)) : VCtx :=
  rs.foldl (fun ctx nr => vctxCheck ctx nr.1 nr.2) ⟨0, 0, []⟩

/-- The summary step of `validate_archive` (lines 228-236): a valid context
prints no failure lines and returns success; otherwise every recorded
error line is printed and the operation returns the
`Archive validation failed` error. -/
def finalReport (ctx : VCtx) : List String × Except String Unit :=
  if ctx.isValid then ([], Except.ok ())
  else (ctx.errors, Except.error "Archive validation failed")

/-- The message carried by a failed check. -/
def errText : Except String Unit → String
  | Except.error e => e
  | Except.ok _ => ""

/-- `validate.rs::check_magic` (lines 250-254): returns `Ok(())`
unconditionally without inspecting its arguments. -/
def check_magic (_expected : Bytes) (_location : String) : Except String Unit :=
  Except.ok ()

/-! ## Theorems -/

theorem slice_append_left (a b : Bytes) (p n : Nat) (h : p + n ≤ a.length) :
    slice (a ++ b) p n = slice a p n := by
  unfold slice
  rw [List.drop_append_of_le_length (by omega),
    List.take_append_of_le_length (by rw [List.length_drop]; omega)]

theorem slice_append_right (a b : Bytes) (p n : Nat) (h : a.length ≤ p) :
    slice (a ++ b) p n = slice b (p - a.length) n := by
  unfold slice
  conv_lhs => rw [show p = a.length + (p - a.length) from by omega, List.drop_append]

theorem setSlice_length (l r : Bytes) (p : Nat) (h : p + r.length ≤ l.length) :
    (setSlice l p r).length = l.length := by
  simp only [setSlice, List.length_append, List.length_take, List.length_drop]
  omega

theorem slice_setSlice_before (l r : Bytes) (p q n : Nat)
    (h : q + n ≤ p) (hp : p ≤ l.length) :
    slice (setSlice l p r) q n = slice l q n := by
  unfold setSlice
  rw [List.append_assoc, slice_append_left _ _ _ _ (by rw [List.length_take]; omega)]
  unfold slice
  rw [List.drop_take, List.take_take]
  have : n ⊓ (p - q) = n := by omega
  rw [this]

theorem slice_setSlice_at (l r : Bytes) (p : Nat) (h : p + r.length ≤ l.length) :
    slice (setSlice l p r) p r.length = r := by
  unfold setSlice
  rw [List.append_assoc, slice_append_right _ _ _ _ (by rw [List.length_take]; omega)]
  have hp : p - (List.take p l).length = 0 := by rw [List.length_take]; omega
  rw [hp]
  unfold slice
  rw [List.drop_zero, List.take_append_of_le_length (by omega),
    List.take_of_length_le (by omega)]

theorem slice_setSlice_self (l r : Bytes) (p n : Nat) (hn : r.length = n)
    (h : p + n ≤ l.length) : slice (setSlice l p r) p n = r := by
  subst hn
  exact slice_setSlice_at l r p h

theorem slice_setSlice_after (l r : Bytes) (p q n : Nat)
    (h : p + r.length ≤ q) (hp : p + r.length ≤ l.length) :
    slice (setSlice l p r) q n = slice l q n := by
  unfold setSlice
  rw [slice_append_right _ _ _ _
    (by simp only [List.length_append, List.length_take]; omega)]
  have hl : (List.take p l ++ r).length = p + r.length := by
    simp only [List.length_append, List.length_take]; omega
  unfold slice
  rw [List.drop_drop, hl]
  have : p + r.length + (q - (p + r.length)) = q := by omega
  rw [this]

/-- Reading `remaining` bytes in bounded chunks yields exactly the first
`remaining` bytes when the data is long enough. -/
theorem chunkLoop_eq_take (remaining : Nat) : ∀ data : Bytes,
    remaining ≤ data.length → chunkLoop data remaining = data.take remaining := by
  induction remaining using Nat.strong_induction_on with
  | _ remaining ih =>
    intro data hlen
    unfold chunkLoop
    by_cases h0 : remaining = 0
    · simp [h0]
    · simp only [h0, dif_neg, not_false_iff]
      have htr : min 65536 remaining ≤ remaining := Nat.min_le_right _ _
      have htr1 : 1 ≤ min 65536 remaining := by omega
      have hcl : (data.take (min 65536 remaining)).length = min 65536 remaining := by
        rw [List.length_take]; omega
      have hne : ¬ (data.take (min 65536 remaining)).length = 0 := by omega
      simp only [hne, dif_neg, not_false_iff]
      rw [hcl]
      rw [ih (remaining - min 65536 remaining) (by omega) _
        (by rw [List.length_drop]; omega)]
      rw [List.take_drop]
      have hsum : min 65536 remaining + (remaining - min 65536 remaining) = remaining := by
        omega
      rw [hsum]
      have hmt : List.take (65536 ⊓ remaining) data =
          List.take (65536 ⊓ remaining) (List.take remaining data) := by
        rw [List.take_take]
        congr 1
        omega
      rw [hmt, List.take_append_drop]

/-- C4. The whole-archive digest computed over the in-memory buffer at
creation time equals the digest recomputed by the validator from the same
bytes read back from disk: for any archive buffer of at least 576 bytes
(header plus end record plus anything between) whose end record occupies
the final 64 bytes, the byte stream the creator hashes
(`checksumStreamCreate`, `create.rs` lines 180-189) is exactly the byte
stream the validator hashes (`checksumStreamValidate`,
`calculate_archive_checksum`), so any digest function — BLAKE3 included —
computes the same value for both. -/
theorem checksum_create_eq_validate (bytes : Bytes) (h : 576 ≤ bytes.length) :
    checksumStreamCreate bytes (bytes.length - 64) = checksumStreamValidate bytes ∧
    ∀ H : Bytes → Bytes,
      H (checksumStreamCreate bytes (bytes.length - 64)) =
      H (checksumStreamValidate bytes) := by
  have main : checksumStreamCreate bytes (bytes.length - 64) =
      checksumStreamValidate bytes := by
    unfold checksumStreamCreate checksumStreamValidate
    have h1 : slice (bytes.take 512) 0 36 = slice bytes 0 36 := by
      unfold slice
      rw [List.drop_zero, List.drop_zero, List.take_take]
      norm_num
    have h2 : (bytes.take 512).drop 68 ++
        chunkLoop (bytes.drop 512) (bytes.length - 512 - 64) =
        slice bytes 68 (bytes.length - 64 - 68) := by
      rw [chunkLoop_eq_take _ _ (by rw [List.length_drop]; omega)]
      rw [List.drop_take]
      unfold slice
      have hsplit : bytes.length - 64 - 68 = (512 - 68) + (bytes.length - 512 - 64) := by
        omega
      rw [hsplit, List.take_add, List.drop_drop]
    have h3 : slice (slice bytes (bytes.length - 64) 64) 0 20 =
        slice bytes (bytes.length - 64) 20 := by
      unfold slice
      rw [List.drop_zero, List.take_take]
      norm_num
    have h4 : (slice bytes (bytes.length - 64) 64).drop 52 =
        bytes.drop (bytes.length - 64 + 52) := by
      unfold slice
      rw [List.drop_take, List.drop_drop]
      rw [List.take_of_length_le (by rw [List.length_drop]; omega)]
    rw [h1, h3, h4]
    simp only [List.append_assoc]
    rw [← h2]
    simp only [List.append_assoc]
  exact ⟨main, fun H => by rw [main]⟩

/-- Witness for C4 at a concrete 576-byte buffer. -/
theorem checksum_create_eq_validate_witness :
    576 ≤ (List.replicate 576 0 : Bytes).length ∧
    checksumStreamCreate (List.replicate 576 0) ((List.replicate 576 0 : Bytes).length - 64) =
      checksumStreamValidate (List.replicate 576 0) :=
  ⟨by simp, (checksum_create_eq_validate (List.replicate 576 0) (by simp)).1⟩

theorem u64ToBe_length (n : Nat) : (u64ToBe n).length = 8 := by
  simp [u64ToBe]

theorem u32ToBe_length (n : Nat) : (u32ToBe n).length = 4 := by
  simp [u32ToBe]

theorem u16ToBe_length (n : Nat) : (u16ToBe n).length = 2 := by
  simp [u16ToBe]

theorem zeros32_length : (zeros32 : Bytes).length = 32 := by
  simp [zeros32]

theorem headerWriteTo_length (h : ArchiveHeader)
    (hc : h.archive_checksum.length = 32) : (headerWriteTo h).length = 512 := by
  simp only [headerWriteTo, List.length_append, List.length_replicate,
    u64ToBe_length, u32ToBe_length, hc, MAGIC, VERSION, List.length_cons,
    List.length_nil]

theorem endRecordWriteTo_length (r : ArchiveEndRecord)
    (hc : r.archive_checksum.length = 32) : (endRecordWriteTo r).length = 64 := by
  simp only [endRecordWriteTo, List.length_append, List.length_replicate,
    u64ToBe_length, hc, ENDMAGIC, List.length_cons, List.length_nil]

theorem addFilesLoop_fst (files : List InputFile) : ∀ (buf : Bytes) (dss : Nat),
    (addFilesLoop buf dss files).1 = buf ++ dataBytesOf files := by
  induction files with
  | nil => intro buf dss; simp [addFilesLoop, dataBytesOf]
  | cons f rest ih =>
      intro buf dss
      simp [addFilesLoop, dataBytesOf, ih, List.append_assoc]

theorem addFilesLoop_snd_length (files : List InputFile) :
    ∀ (buf : Bytes) (dss : Nat),
    (addFilesLoop buf dss files).2.length = files.length := by
  induction files with
  | nil => intro buf dss; simp [addFilesLoop]
  | cons f rest ih => intro buf dss; simp [addFilesLoop, ih]

theorem createHeader0_length (ts : Nat) : (createHeader0 ts).length = 512 :=
  headerWriteTo_length _ (by simp [zeros32])

theorem createCount_eq (ts : Nat) (files : List InputFile) :
    createCount ts files = files.length := by
  unfold createCount createAfterData
  rw [addFilesLoop_snd_length]

theorem createIss_eq (ts : Nat) (files : List InputFile) :
    createIss ts files = 512 + (dataBytesOf files).length := by
  unfold createIss createAfterData
  rw [addFilesLoop_fst, List.length_append, createHeader0_length]

theorem createEndOff_eq (ts : Nat) (files : List InputFile) :
    createEndOff ts files = createIss ts files + 4 +
      (((createAfterData ts files).2.map indexEntryWriteTo).flatten).length := by
  unfold createEndOff createBuf3
  rw [List.length_append, List.length_append, u32ToBe_length]
  unfold createIss
  omega

theorem createBuf4_length (ts : Nat) (files : List InputFile) :
    (createBuf4 ts files).length = createEndOff ts files + 64 := by
  unfold createBuf4
  rw [List.length_append, endRecordWriteTo_length _ (by simp [zeros32])]
  rfl

theorem headerWriteTo_take8 (h : ArchiveHeader) :
    (headerWriteTo h).take 8 = MAGIC ++ VERSION := by
  simp [headerWriteTo, MAGIC, VERSION, u64ToBe, u32ToBe]

theorem endRecordWriteTo_slice_4_8 (r : ArchiveEndRecord) :
    slice (endRecordWriteTo r) 4 8 = u64ToBe r.index_offset := by
  simp [endRecordWriteTo, ENDMAGIC, u64ToBe, slice]

theorem createBuf4_slice_end4 (ts : Nat) (files : List InputFile) :
    slice (createBuf4 ts files) (createEndOff ts files + 4) 8 =
    u64ToBe (createIss ts files) := by
  unfold createBuf4
  rw [slice_append_right _ _ _ _ (by unfold createEndOff; omega)]
  have hidx : createEndOff ts files + 4 - (createBuf3 ts files).length = 4 := by
    unfold createEndOff; omega
  rw [hidx, endRecordWriteTo_slice_4_8]

theorem createBuf4_slice_iss4 (ts : Nat) (files : List InputFile) :
    slice (createBuf4 ts files) (createIss ts files) 4 =
    u32ToBe (createCount ts files) := by
  unfold createBuf4 createBuf3
  rw [slice_append_left _ _ _ _ (by
    simp only [List.length_append, u32ToBe_length]
    unfold createIss
    omega)]
  rw [slice_append_left _ _ _ _ (by
    simp only [List.length_append, u32ToBe_length]
    unfold createIss
    omega)]
  rw [slice_append_right _ _ _ _ (by unfold createIss; omega)]
  have hidx : createIss ts files - (createAfterData ts files).1.length = 0 := by
    unfold createIss; omega
  rw [hidx]
  unfold slice
  rw [List.drop_zero, List.take_of_length_le (by rw [u32ToBe_length])]

theorem createBuf4_take8 (ts : Nat) (files : List InputFile) :
    (createBuf4 ts files).take 8 = MAGIC ++ VERSION := by
  unfold createBuf4 createBuf3
  rw [List.take_append_of_le_length (by
    simp only [List.length_append, u32ToBe_length]
    have := createIss_eq ts files
    unfold createIss at this
    omega)]
  rw [List.take_append_of_le_length (by
    simp only [List.length_append, u32ToBe_length]
    have := createIss_eq ts files
    unfold createIss at this
    omega)]
  rw [List.take_append_of_le_length (by
    have := createIss_eq ts files
    unfold createIss at this
    omega)]
  unfold createAfterData
  rw [addFilesLoop_fst]
  rw [List.take_append_of_le_length (by rw [createHeader0_length]; omega)]
  exact headerWriteTo_take8 _

theorem createBuf4_slice_0_8 (ts : Nat) (files : List InputFile) :
    slice (createBuf4 ts files) 0 8 = MAGIC ++ VERSION := by
  unfold slice
  rw [List.drop_zero]
  exact createBuf4_take8 ts files

theorem createEndOff_ge (ts : Nat) (files : List InputFile) :
    516 ≤ createEndOff ts files := by
  have h1 := createEndOff_eq ts files
  have h2 := createIss_eq ts files
  omega

theorem createIss_ge (ts : Nat) (files : List InputFile) :
    512 ≤ createIss ts files := by
  have := createIss_eq ts files
  omega

theorem createIss_le_endOff (ts : Nat) (files : List InputFile) :
    createIss ts files + 4 ≤ createEndOff ts files := by
  have := createEndOff_eq ts files
  omega

theorem createBuf5_length (ts : Nat) (files : List InputFile) :
    (createBuf5 ts files).length = createEndOff ts files + 64 := by
  have h4 := createBuf4_length ts files
  have hE := createEndOff_ge ts files
  unfold createBuf5
  rw [setSlice_length _ _ _ (by rw [u64ToBe_length]; omega)]
  exact h4

theorem createBuf6_length (ts : Nat) (files : List InputFile) :
    (createBuf6 ts files).length = createEndOff ts files + 64 := by
  have h5 := createBuf5_length ts files
  have hE := createEndOff_ge ts files
  unfold createBuf6
  rw [setSlice_length _ _ _ (by rw [u64ToBe_length]; omega)]
  exact h5

theorem createBuf7_length (ts : Nat) (files : List InputFile) :
    (createBuf7 ts files).length = createEndOff ts files + 64 := by
  have h6 := createBuf6_length ts files
  have hE := createEndOff_ge ts files
  unfold createBuf7
  rw [setSlice_length _ _ _ (by rw [u32ToBe_length]; omega)]
  exact h6

theorem createBuf7_slice_0_8 (ts : Nat) (files : List InputFile) :
    slice (createBuf7 ts files) 0 8 = MAGIC ++ VERSION := by
  have h4 := createBuf4_length ts files
  have h5 := createBuf5_length ts files
  have h6 := createBuf6_length ts files
  have hE := createEndOff_ge ts files
  unfold createBuf7 createBuf6 createBuf5
  unfold createBuf6 createBuf5 at h6
  unfold createBuf5 at h5
  rw [slice_setSlice_before _ _ _ _ _ (by omega) (by omega)]
  rw [slice_setSlice_before _ _ _ _ _ (by omega) (by omega)]
  rw [slice_setSlice_before _ _ _ _ _ (by omega) (by omega)]
  exact createBuf4_slice_0_8 ts files

theorem createBuf7_slice_16_8 (ts : Nat) (files : List InputFile) :
    slice (createBuf7 ts files) 16 8 = u64ToBe (createIss ts files) := by
  have h5 := createBuf5_length ts files
  have h6 := createBuf6_length ts files
  have hE := createEndOff_ge ts files
  unfold createBuf7 createBuf6
  unfold createBuf6 at h6
  rw [slice_setSlice_before _ _ _ _ _ (by omega) (by omega)]
  exact slice_setSlice_self _ _ _ _ (u64ToBe_length _) (by omega)

theorem createBuf7_slice_24_4 (ts : Nat) (files : List InputFile) :
    slice (createBuf7 ts files) 24 4 = u32ToBe (createCount ts files) := by
  have h6 := createBuf6_length ts files
  have hE := createEndOff_ge ts files
  unfold createBuf7
  exact slice_setSlice_self _ _ _ _ (u32ToBe_length _) (by omega)

theorem createBuf7_slice_end4 (ts : Nat) (files : List InputFile) :
    slice (createBuf7 ts files) (createEndOff ts files + 4) 8 =
    u64ToBe (createIss ts files) := by
  have h4 := createBuf4_length ts files
  have h5 := createBuf5_length ts files
  have h6 := createBuf6_length ts files
  have hE := createEndOff_ge ts files
  unfold createBuf7 createBuf6 createBuf5
  unfold createBuf6 createBuf5 at h6
  unfold createBuf5 at h5
  rw [slice_setSlice_after _ _ _ _ _ (by rw [u32ToBe_length]; omega)
    (by rw [u32ToBe_length]; omega)]
  rw [slice_setSlice_after _ _ _ _ _ (by rw [u64ToBe_length]; omega)
    (by rw [u64ToBe_length]; omega)]
  rw [slice_setSlice_after _ _ _ _ _ (by rw [u64ToBe_length]; omega)
    (by rw [u64ToBe_length]; omega)]
  exact createBuf4_slice_end4 ts files

theorem createBuf7_slice_iss4 (ts : Nat) (files : List InputFile) :
    slice (createBuf7 ts files) (createIss ts files) 4 =
    u32ToBe (createCount ts files) := by
  have h4 := createBuf4_length ts files
  have h5 := createBuf5_length ts files
  have h6 := createBuf6_length ts files
  have hE := createEndOff_ge ts files
  have hI := createIss_ge ts files
  have hIE := createIss_le_endOff ts files
  unfold createBuf7 createBuf6 createBuf5
  unfold createBuf6 createBuf5 at h6
  unfold createBuf5 at h5
  rw [slice_setSlice_after _ _ _ _ _ (by rw [u32ToBe_length]; omega)
    (by rw [u32ToBe_length]; omega)]
  rw [slice_setSlice_after _ _ _ _ _ (by rw [u64ToBe_length]; omega)
    (by rw [u64ToBe_length]; omega)]
  rw [slice_setSlice_after _ _ _ _ _ (by rw [u64ToBe_length]; omega)
    (by rw [u64ToBe_length]; omega)]
  exact createBuf4_slice_iss4 ts files

theorem createBytes_length (H : Bytes → Bytes) (ts : Nat) (files : List InputFile)
    (hd : (createDigest H ts files).length = 32) :
    (createBytes H ts files).length = createEndOff ts files + 64 := by
  have h7 := createBuf7_length ts files
  have hE := createEndOff_ge ts files
  unfold createBytes
  rw [setSlice_length _ _ _ (by rw [setSlice_length _ _ _ (by omega)]; omega)]
  rw [setSlice_length _ _ _ (by omega)]
  exact h7

theorem createBytes_slice_0_8 (H : Bytes → Bytes) (ts : Nat) (files : List InputFile)
    (hd : (createDigest H ts files).length = 32) :
    slice (createBytes H ts files) 0 8 = MAGIC ++ VERSION := by
  have h7 := createBuf7_length ts files
  have hE := createEndOff_ge ts files
  unfold createBytes
  rw [slice_setSlice_before _ _ _ _ _ (by omega)
    (by rw [setSlice_length _ _ _ (by omega)]; omega)]
  rw [slice_setSlice_before _ _ _ _ _ (by omega) (by omega)]
  exact createBuf7_slice_0_8 ts files

theorem createBytes_slice_16_8 (H : Bytes → Bytes) (ts : Nat) (files : List InputFile)
    (hd : (createDigest H ts files).length = 32) :
    slice (createBytes H ts files) 16 8 = u64ToBe (createIss ts files) := by
  have h7 := createBuf7_length ts files
  have hE := createEndOff_ge ts files
  unfold createBytes
  rw [slice_setSlice_before _ _ _ _ _ (by omega)
    (by rw [setSlice_length _ _ _ (by omega)]; omega)]
  rw [slice_setSlice_before _ _ _ _ _ (by omega) (by omega)]
  exact createBuf7_slice_16_8 ts files

theorem createBytes_slice_24_4 (H : Bytes → Bytes) (ts : Nat) (files : List InputFile)
    (hd : (createDigest H ts files).length = 32) :
    slice (createBytes H ts files) 24 4 = u32ToBe (createCount ts files) := by
  have h7 := createBuf7_length ts files
  have hE := createEndOff_ge ts files
  unfold createBytes
  rw [slice_setSlice_before _ _ _ _ _ (by omega)
    (by rw [setSlice_length _ _ _ (by omega)]; omega)]
  rw [slice_setSlice_before _ _ _ _ _ (by omega) (by omega)]
  exact createBuf7_slice_24_4 ts files

theorem createBytes_slice_end4 (H : Bytes → Bytes) (ts : Nat) (files : List InputFile)
    (hd : (createDigest H ts files).length = 32) :
    slice (createBytes H ts files) (createEndOff ts files + 4) 8 =
    u64ToBe (createIss ts files) := by
  have h7 := createBuf7_length ts files
  have hE := createEndOff_ge ts files
  unfold createBytes
  rw [slice_setSlice_before _ _ _ _ _ (by omega)
    (by rw [setSlice_length _ _ _ (by omega)]; omega)]
  rw [slice_setSlice_after _ _ _ _ _ (by omega) (by omega)]
  exact createBuf7_slice_end4 ts files

theorem createBytes_slice_iss4 (H : Bytes → Bytes) (ts : Nat) (files : List InputFile)
    (hd : (createDigest H ts files).length = 32) :
    slice (createBytes H ts files) (createIss ts files) 4 =
    u32ToBe (createCount ts files) := by
  have h7 := createBuf7_length ts files
  have hE := createEndOff_ge ts files
  have hI := createIss_ge ts files
  have hIE := createIss_le_endOff ts files
  unfold createBytes
  rw [slice_setSlice_before _ _ _ _ _ (by omega)
    (by rw [setSlice_length _ _ _ (by omega)]; omega)]
  rw [slice_setSlice_after _ _ _ _ _ (by omega) (by omega)]
  exact createBuf7_slice_iss4 ts files

/-- C9. Every archive produced by `create` satisfies: the 8 header bytes
holding `index_section_start` (bytes 16-23) equal the 8 end-record bytes
holding `index_offset` (bytes 4-11 of the end record, at
`end_record_offset + 4`), both being the big-endian encoding of the
index section start; and `total_files` (header bytes 24-27) equals the
32-bit entry count stored at the start of the index section, which equals
the number of index entries written. -/
theorem create_offsets_and_count (H : Bytes → Bytes) (ts : Nat)
    (files : List InputFile) (hH : ∀ s, (H s).length = 32) :
    slice (createArchive H ts files).bytes 16 8 =
      slice (createArchive H ts files).bytes
        ((createArchive H ts files).end_record_offset + 4) 8 ∧
    slice (createArchive H ts files).bytes 16 8 =
      u64ToBe (createArchive H ts files).index_section_start ∧
    slice (createArchive H ts files).bytes 24 4 =
      u32ToBe (createArchive H ts files).file_count ∧
    slice (createArchive H ts files).bytes
        (createArchive H ts files).index_section_start 4 =
      u32ToBe (createArchive H ts files).file_count ∧
    (createArchive H ts files).entries.length =
      (createArchive H ts files).file_count := by
  have hd : (createDigest H ts files).length = 32 := hH _
  refine ⟨?_, ?_, ?_, ?_, ?_⟩
  · show slice (createBytes H ts files) 16 8 =
      slice (createBytes H ts files) (createEndOff ts files + 4) 8
    rw [createBytes_slice_16_8 H ts files hd, createBytes_slice_end4 H ts files hd]
  · exact createBytes_slice_16_8 H ts files hd
  · exact createBytes_slice_24_4 H ts files hd
  · exact createBytes_slice_iss4 H ts files hd
  · rfl

/-- Witness for C9: the invariants instantiated at a concrete digest
collaborator (the constant zero digest), timestamp 0 and the empty file
list. -/
theorem create_offsets_and_count_witness :
    slice (createArchive (fun _ => zeros32) 0 []).bytes 16 8 =
      slice (createArchive (fun _ => zeros32) 0 []).bytes
        ((createArchive (fun _ => zeros32) 0 []).end_record_offset + 4) 8 ∧
    slice (createArchive (fun _ => zeros32) 0 []).bytes 16 8 =
      u64ToBe (createArchive (fun _ => zeros32) 0 []).index_section_start ∧
    slice (createArchive (fun _ => zeros32) 0 []).bytes 24 4 =
      u32ToBe (createArchive (fun _ => zeros32) 0 []).file_count ∧
    slice (createArchive (fun _ => zeros32) 0 []).bytes
        (createArchive (fun _ => zeros32) 0 []).index_section_start 4 =
      u32ToBe (createArchive (fun _ => zeros32) 0 []).file_count ∧
    (createArchive (fun _ => zeros32) 0 []).entries.length =
      (createArchive (fun _ => zeros32) 0 []).file_count :=
  create_offsets_and_count (fun _ => zeros32) 0 [] (fun _ => zeros32_length)

/-- C2. Creating from an empty input set does yield a stored `total_files`
of 0 and zero index entries — but the resulting archive is NOT accepted by
the validator: the Writer stamps version literal `"0004"`
(`ArchiveHeader::VERSION`) into bytes 4-7, while `validate.rs::read_header`
compares those bytes against the stale literal `"0003"`, so the
`Header readable` check fails (no header value is produced) for every
archive `create` writes, and Full validation cannot pass. -/
theorem empty_create_counts_zero_but_validator_rejects (H : Bytes → Bytes)
    (ts : Nat) (hH : ∀ s, (H s).length = 32) :
    (createArchive H ts []).file_count = 0 ∧
    (createArchive H ts []).entries = [] ∧
    slice (createArchive H ts []).bytes 24 4 = u32ToBe 0 ∧
    validateReadHeader (createArchive H ts []).bytes = Option.none := by
  have hd : (createDigest H ts []).length = 32 := hH _
  have hcount : (createArchive H ts []).file_count = 0 := by
    show createCount ts [] = 0
    rw [createCount_eq]
    rfl
  have hlen := createBytes_length H ts [] hd
  have hE := createEndOff_ge ts ([] : List InputFile)
  refine ⟨hcount, rfl, ?_, ?_⟩
  · have h24 := createBytes_slice_24_4 H ts [] hd
    rw [createCount_eq] at h24
    exact h24
  · have h08 := createBytes_slice_0_8 H ts [] hd
    have h44 : slice ((createBytes H ts []).take 512) 4 4 = VERSION := by
      unfold slice
      rw [List.drop_take, List.take_take]
      have hmin : (4 : Nat) ⊓ (512 - 4) = 4 := by omega
      rw [hmin]
      have h8 : List.take 4 (List.drop 4 (createBytes H ts [])) =
          List.drop 4 (List.take 8 (createBytes H ts [])) := by
        rw [List.take_drop]
      rw [h8]
      have htake8 : (createBytes H ts []).take 8 = MAGIC ++ VERSION := by
        have := h08
        unfold slice at this
        rw [List.drop_zero] at this
        exact this
      rw [htake8]
      simp [MAGIC, VERSION]
    show validateReadHeader (createBytes H ts []) = Option.none
    unfold validateReadHeader
    rw [if_neg (by omega)]
    rw [if_neg]
    rintro ⟨-, hB⟩
    rw [h44] at hB
    exact absurd hB (by decide)

/-- Witness for C2 at the constant zero digest collaborator and
timestamp 0. -/
theorem empty_create_counts_zero_but_validator_rejects_witness :
    (createArchive (fun _ => zeros32) 0 []).file_count = 0 ∧
    (createArchive (fun _ => zeros32) 0 []).entries = [] ∧
    slice (createArchive (fun _ => zeros32) 0 []).bytes 24 4 = u32ToBe 0 ∧
    validateReadHeader (createArchive (fun _ => zeros32) 0 []).bytes =
      Option.none :=
  empty_create_counts_zero_but_validator_rejects (fun _ => zeros32) 0
    (fun _ => zeros32_length)

theorem slice_take (l : Bytes) (k p n : Nat) (h : p + n ≤ k) :
    slice (l.take k) p n = slice l p n := by
  unfold slice
  rw [List.drop_take, List.take_take]
  congr 1
  omega

/-- C1 (code evidence). `create` assigns the `Lzma` codec to recognized
text extensions such as `txt`; the index stores its discriminant byte 3;
`CompressionAlgorithm::try_from` decodes 3 back to `Lzma`; but the
byte-to-algorithm match in `extract.rs::call` maps byte 3 to the
`Unknown compression algorithm` error, so extraction of any entry whose
recorded algorithm byte is 3 fails before its (unreachable) Lzma
decompression branch — create → extract cannot round-trip Lzma entries. -/
theorem lzma_entries_unextractable :
    getCompressionAlgorithm (some "txt") = CompressionAlgorithm.Lzma ∧
    CompressionAlgorithm.asByte CompressionAlgorithm.Lzma = 3 ∧
    CompressionAlgorithm.tryFromByte 3 = some CompressionAlgorithm.Lzma ∧
    extractAlgoFromByte 3 = Option.none :=
  ⟨by rfl, by decide, by decide, by decide⟩

/-- C6 (counterexample). A 512-byte input that differs from a valid header
only in the fourth magic byte (88, the letter X, instead of 0) is accepted
by header decode: both `src/archive.rs::read_header` and
`validate.rs::read_header` compare only `buf[0..3]` against `b"DAR"`,
never the fourth magic byte, so the claimed rejection does not happen. -/
theorem fourth_magic_byte_accepted_cx :
    (archiveReadHeader ([68, 65, 82, 88] ++ VERSION ++
      List.replicate 504 0)).isSome = true := by decide

/-- C6 (amended). Header decode reads exactly 512 bytes (fewer available is
a format error with no value produced) and, for a 512-byte buffer, fails
if and only if the first THREE magic bytes (`b"DAR"`) or the 4-byte version
literal do not match exactly; the fourth magic byte is never inspected —
overwriting it changes nothing about the decode. -/
theorem read_header_decode_condition (file : Bytes) (b : Nat)
    (h : 512 ≤ file.length) :
    (∀ g : Bytes, g.length < 512 → archiveReadHeader g = Option.none) ∧
    ((archiveReadHeader file).isNone = true ↔
      ¬(slice (file.take 512) 0 3 = [68, 65, 82] ∧
        slice (file.take 512) 4 4 = VERSION)) ∧
    archiveReadHeader (setSlice file 3 [b]) = archiveReadHeader file := by
  refine ⟨?_, ?_, ?_⟩
  · intro g hg
    unfold archiveReadHeader
    rw [if_pos hg]
  · unfold archiveReadHeader
    rw [if_neg (by omega)]
    by_cases hc : slice (file.take 512) 0 3 = [68, 65, 82] ∧
        slice (file.take 512) 4 4 = VERSION
    · rw [if_pos hc]
      simp [hc]
    · rw [if_neg hc]
      simp [hc]
  · have hlen : (setSlice file 3 [b]).length = file.length :=
      setSlice_length _ _ _ (by simp; omega)
    have e03 : slice ((setSlice file 3 [b]).take 512) 0 3 =
        slice (file.take 512) 0 3 := by
      rw [slice_take _ _ _ _ (by omega), slice_take _ _ _ _ (by omega)]
      exact slice_setSlice_before _ _ _ _ _ (by simp) (by omega)
    have e44 : slice ((setSlice file 3 [b]).take 512) 4 4 =
        slice (file.take 512) 4 4 := by
      rw [slice_take _ _ _ _ (by omega), slice_take _ _ _ _ (by omega)]
      exact slice_setSlice_after _ _ _ _ _ (by simp) (by simp; omega)
    have e88 : slice ((setSlice file 3 [b]).take 512) 8 8 =
        slice (file.take 512) 8 8 := by
      rw [slice_take _ _ _ _ (by omega), slice_take _ _ _ _ (by omega)]
      exact slice_setSlice_after _ _ _ _ _ (by simp) (by simp; omega)
    have e16 : slice ((setSlice file 3 [b]).take 512) 16 8 =
        slice (file.take 512) 16 8 := by
      rw [slice_take _ _ _ _ (by omega), slice_take _ _ _ _ (by omega)]
      exact slice_setSlice_after _ _ _ _ _ (by simp) (by simp; omega)
    have e24 : slice ((setSlice file 3 [b]).take 512) 24 4 =
        slice (file.take 512) 24 4 := by
      rw [slice_take _ _ _ _ (by omega), slice_take _ _ _ _ (by omega)]
      exact slice_setSlice_after _ _ _ _ _ (by simp) (by simp; omega)
    have e36 : slice ((setSlice file 3 [b]).take 512) 36 32 =
        slice (file.take 512) 36 32 := by
      rw [slice_take _ _ _ _ (by omega), slice_take _ _ _ _ (by omega)]
      exact slice_setSlice_after _ _ _ _ _ (by simp) (by simp; omega)
    simp only [archiveReadHeader]
    rw [hlen, e03, e44, e88, e16, e24, e36]

/-- Witness for C6 at a concrete valid 512-byte header buffer and
overwrite byte 88. -/
theorem read_header_decode_condition_witness :
    (∀ g : Bytes, g.length < 512 → archiveReadHeader g = Option.none) ∧
    ((archiveReadHeader (MAGIC ++ VERSION ++ List.replicate 504 0)).isNone = true ↔
      ¬(slice ((MAGIC ++ VERSION ++ List.replicate 504 0 : Bytes).take 512) 0 3 =
          [68, 65, 82] ∧
        slice ((MAGIC ++ VERSION ++ List.replicate 504 0 : Bytes).take 512) 4 4 =
          VERSION)) ∧
    archiveReadHeader (setSlice (MAGIC ++ VERSION ++ List.replicate 504 0) 3 [88]) =
      archiveReadHeader (MAGIC ++ VERSION ++ List.replicate 504 0) :=
  read_header_decode_condition (MAGIC ++ VERSION ++ List.replicate 504 0) 88
    (by simp [MAGIC, VERSION])

/-- C5 (counterexample). An entry whose 8-byte length field decodes to 99
while its recorded `compressed_size` is 3 extracts successfully anyway —
`extract.rs` binds the field to `_actual_compressed_size` and never
compares it, so extraction does not fail when they differ. -/
theorem extract_prefix_mismatch_still_succeeds_cx :
    beToNat (slice (u64ToBe 99 ++ [10, 20, 30]) 0 8) = 99 ∧
    XEntry.compressed_size ⟨[97], 0, 3, 3, CompressionAlgorithm.None⟩ = 3 ∧
    extractEntryStep
      ⟨fun _ => Option.none, fun _ => Option.none, fun _ => Option.none⟩
      (u64ToBe 99 ++ [10, 20, 30]) 0
      ⟨[97], 0, 3, 3, CompressionAlgorithm.None⟩ = some [10, 20, 30] := by
  decide

/-- C5 (amended). During extraction the 8-byte length field is read but
never compared: overwriting it with any other 8 bytes leaves the outcome of
the entry's extraction unchanged.  The cross-check the claim describes is
performed only by the validator's `verify_entry_data` (Slow level), which
fails whenever the decoded length field differs from the entry's recorded
`compressed_size`. -/
theorem extract_skips_prefix_validator_rejects_mismatch :
    (∀ (c : Codec) (file : Bytes) (dss : Nat) (e : XEntry) (p : Bytes),
        p.length = 8 → dss + e.data_offset + 8 ≤ file.length →
        extractEntryStep c (setSlice file (dss + e.data_offset) p) dss e =
          extractEntryStep c file dss e) ∧
    (∀ (H : Bytes → Bytes) (c : Codec) (file : Bytes) (header : ArchiveHeader)
        (e : VEntry),
        header.data_section_start + e.data_offset + 8 ≤ file.length →
        beToNat (slice file (header.data_section_start + e.data_offset) 8) ≠
          e.compressed_size →
        verifyEntryData H c file header e = Option.none) := by
  constructor
  · intro c file dss e p hp8 hle
    have hlen2 : (setSlice file (dss + e.data_offset) p).length = file.length :=
      setSlice_length _ _ _ (by omega)
    have hafter : ∀ n, slice (setSlice file (dss + e.data_offset) p)
        (dss + e.data_offset + 8) n = slice file (dss + e.data_offset + 8) n :=
      fun n => slice_setSlice_after _ _ _ _ _ (by omega) (by omega)
    unfold extractEntryStep readExact
    rw [hlen2, hafter]
    rw [if_pos (by omega : dss + e.data_offset + 8 ≤ file.length)]
    rw [if_pos (by omega : dss + e.data_offset + 8 ≤ file.length)]
  · intro H c file header e hle hne
    unfold verifyEntryData readExact
    rw [if_pos hle]
    simp only [if_pos hne, ne_eq]

/-- C3 (code evidence). An index entry whose stored path is `../evil.txt`
(constructed directly, bypassing create) extracts OUTSIDE the extraction
root: `extract.rs` joins the output directory and the stored path with no
sanitization, so `out/../evil.txt` resolves to `evil.txt`, which is not
under `out` — while create-side `sanitize_path` (never applied during
extraction) would have reduced the same path to `evil.txt` inside the
root. -/
theorem parent_dir_entry_escapes_extract_root :
    resolveComps (joinPath (parsePathComps "out") (parsePathComps "../evil.txt")) =
      ["evil.txt"] ∧
    resolveComps (parsePathComps "out") = ["out"] ∧
    underRoot (resolveComps (parsePathComps "out"))
      (resolveComps (joinPath (parsePathComps "out")
        (parsePathComps "../evil.txt"))) = false ∧
    sanitizeComps (parsePathComps "../evil.txt") = ["evil.txt"] := by
  decide

/-- C8 (counterexample). Two index entries that differ only in their
compression algorithm — `y.png` stored with `None` and the same entry
stored with `Lzma` — produce identical listing rows: `list.rs` parses and
displays only path, uncompressed size and compressed size, so the listing
cannot show any entry's compression algorithm, contrary to the claim. -/
theorem listing_shows_no_algorithm_cx :
    listRowFields ((indexEntryWriteTo
      ⟨[121, 46, 112, 110, 103], 0, 100, 100, CompressionAlgorithm.None,
        0, 0, 0, 420, zeros32⟩).drop 4) =
    listRowFields ((indexEntryWriteTo
      ⟨[121, 46, 112, 110, 103], 0, 100, 100, CompressionAlgorithm.Lzma,
        0, 0, 0, 420, zeros32⟩).drop 4) ∧
    listRowFields ((indexEntryWriteTo
      ⟨[121, 46, 112, 110, 103], 0, 100, 100, CompressionAlgorithm.None,
        0, 0, 0, 420, zeros32⟩).drop 4) =
      some ([121, 46, 112, 110, 103], 100, 100) ∧
    (indexEntryWriteTo
      ⟨[121, 46, 112, 110, 103], 0, 100, 100, CompressionAlgorithm.None,
        0, 0, 0, 420, zeros32⟩) ≠
    (indexEntryWriteTo
      ⟨[121, 46, 112, 110, 103], 0, 100, 100, CompressionAlgorithm.Lzma,
        0, 0, 0, 420, zeros32⟩) := by
  decide

/-- C8 (amended). `create` assigns `x.txt` the Lzma codec (non-`None`) and
`y.png` the `None` codec; under `None` the stored bytes are the raw data,
so a 100-byte `y.png` records `compressed_size = uncompressed_size = 100`;
and the listing row for such an entry shows its path and both sizes — but
no listing row shows a compression algorithm, and the compressed size of
`x.txt` is whatever the external xz codec emits (no `≤ 10` bound is
guaranteed by this repository's code). -/
theorem create_algorithm_assignment_and_listing (c : CompressFns)
    (data : Bytes) :
    getCompressionAlgorithm (some "txt") = CompressionAlgorithm.Lzma ∧
    CompressionAlgorithm.Lzma ≠ CompressionAlgorithm.None ∧
    getCompressionAlgorithm (some "png") = CompressionAlgorithm.None ∧
    compressData c CompressionAlgorithm.None data = some data ∧
    (compressData c CompressionAlgorithm.None data).map List.length =
      some data.length ∧
    listRowFields ((indexEntryWriteTo
      ⟨[121, 46, 112, 110, 103], 0, 100, 100, CompressionAlgorithm.None,
        0, 0, 0, 420, zeros32⟩).drop 4) =
      some ([121, 46, 112, 110, 103], 100, 100) :=
  ⟨by rfl, by decide, by rfl, rfl, rfl, by decide⟩

theorem foldChecks_spec (rs : List (String × Except String Unit)) :
    ∀ ctx : VCtx,
    (rs.foldl (fun c nr => vctxCheck c nr.1 nr.2) ctx).checks_failed =
      ctx.checks_failed + (rs.filter (fun p => !p.2.isOk)).length ∧
    (rs.foldl (fun c nr => vctxCheck c nr.1 nr.2) ctx).errors =
      ctx.errors ++ (rs.filter (fun p => !p.2.isOk)).map
        (fun p => p.1 ++ ": " ++ errText p.2) := by
  induction rs with
  | nil => intro ctx; simp
  | cons p rest ih =>
      intro ctx
      match hp : p.2 with
      | Except.ok u =>
          have h1 := ih (vctxCheck ctx p.1 (Except.ok u))
          simp only [List.foldl_cons, hp, List.filter_cons]
          simp only [vctxCheck] at h1 ⊢
          simp only [Except.isOk, Except.toBool] at h1 ⊢
          simp [h1]
      | Except.error e =>
          have h1 := ih (vctxCheck ctx p.1 (Except.error e))
          simp only [List.foldl_cons, hp, List.filter_cons]
          simp only [vctxCheck] at h1 ⊢
          simp only [Except.isOk, Except.toBool] at h1 ⊢
          simp [h1, hp, errText]
          omega

/-- C7. For every validation run: the context is valid if and only if zero
checks failed; zero checks failed if and only if every individual check
passed; the final report succeeds exactly in that case; when any check
failed the report surfaces exactly the recorded failure lines; and the
recorded failure lines are precisely one `"{name}: {error}"` line per
failing check, in order. -/
theorem validation_verdict_iff (rs : List (String × Except String Unit)) :
    ((runChecks rs).isValid = true ↔ (runChecks rs).checks_failed = 0) ∧
    ((runChecks rs).checks_failed = 0 ↔ ∀ p ∈ rs, p.2.isOk = true) ∧
    ((finalReport (runChecks rs)).2 = Except.ok () ↔
      (runChecks rs).checks_failed = 0) ∧
    ((runChecks rs).checks_failed ≠ 0 →
      (finalReport (runChecks rs)).1 = (runChecks rs).errors) ∧
    (runChecks rs).errors =
      (rs.filter (fun p => !p.2.isOk)).map
        (fun p => p.1 ++ ": " ++ errText p.2) := by
  have hs := foldChecks_spec rs ⟨0, 0, []⟩
  have hfail : (runChecks rs).checks_failed =
      (rs.filter (fun p => !p.2.isOk)).length := by
    have h := hs.1
    unfold runChecks
    dsimp only at h
    omega
  have herr : (runChecks rs).errors =
      (rs.filter (fun p => !p.2.isOk)).map
        (fun p => p.1 ++ ": " ++ errText p.2) := by
    have h := hs.2
    unfold runChecks
    dsimp only at h
    simpa using h
  refine ⟨?_, ?_, ?_, ?_, herr⟩
  · unfold VCtx.isValid
    simp
  · rw [hfail]
    rw [List.length_eq_zero, List.filter_eq_nil]
    constructor
    · intro hall p hmem
      have := hall p hmem
      simp at this
      exact this
    · intro hall p hmem
      have := hall p hmem
      simp [this]
  · unfold finalReport VCtx.isValid
    by_cases h0 : (runChecks rs).checks_failed = 0
    · simp [h0]
    · simp [h0]
  · intro h0
    unfold finalReport VCtx.isValid
    simp [h0]

/-- C10. The `check_magic` function returns success unconditionally for
every pair of arguments, so recording the `Header magic valid` or
`End record magic valid` check leaves `checks_failed` and the error list
untouched and only increments `checks_passed` — these two named checks can
never contribute a failure to the verdict, whatever the input file held. -/
theorem check_magic_always_passes (expected : Bytes) (location : String)
    (ctx : VCtx) (name : String) :
    check_magic expected location = Except.ok () ∧
    (vctxCheck ctx name (check_magic expected location)).checks_failed =
      ctx.checks_failed ∧
    (vctxCheck ctx name (check_magic expected location)).errors = ctx.errors ∧
    (vctxCheck ctx name (check_magic expected location)).checks_passed =
      ctx.checks_passed + 1 :=
  ⟨rfl, rfl, rfl, rfl⟩

end Dar

